import Mathlib

/-!
# DogSSH configuration repository — verification of the spec's claims

Shallow embedding of the SSH-config repository of DogSSH
(`internal/adapters/data/ssh_config_file`): the password manager's
envelope encryption (base64, nonce framing, AES-GCM via its library
contract), the structured config document model, and the repository
facade operations (add / update / delete / list / password queries).

Go byte slices are modelled as `List Nat` with every element `< 256`,
Go strings as Lean `String`, Go maps as association lists, and the
fallible store side effects as explicit boolean outcome parameters.
-/

namespace DogSSH

/-! ## String helpers (models of Go `strings` functions, ASCII folding) -/

/-- Model of Go `strings.ToLower`, restricted to ASCII simple folding
(the repository only folds directive keys and query text). -/
def toLowerStr (s : String) : String :=
  String.mk (s.data.map Char.toLower)

/-- Helper for `strContains`: does `needle` occur in the haystack list? -/
def containsAux (needle : List Char) : List Char → Bool
  | [] => needle.isEmpty
  | c :: rest => needle.isPrefixOf (c :: rest) || containsAux needle rest

/-- Model of Go `strings.Contains s sub`. -/
def strContains (s sub : String) : Bool :=
  containsAux sub.data s.data

/-- Model of Go `strings.EqualFold` (ASCII simple folding). -/
def equalFold (a b : String) : Bool :=
  toLowerStr a == toLowerStr b

/-! ## Association-list models of Go maps -/

/-- Set a key in a string map (Go map assignment). -/
def setAssoc (m : List (String × String)) (k v : String) : List (String × String) :=
  match m with
  | [] => [(k, v)]
  | (k', v') :: rest => if k' = k then (k, v) :: rest else (k', v') :: setAssoc rest k v

/-- Delete a key from a string map (Go `delete`). -/
def eraseAssoc (m : List (String × String)) (k : String) : List (String × String) :=
  match m with
  | [] => []
  | (k', v') :: rest => if k' = k then rest else (k', v') :: eraseAssoc rest k

/-! ## Base64 (model of Go `encoding/base64` `StdEncoding`)

Encoding maps 3-byte groups to 4 characters of the standard alphabet with
`=` padding; decoding requires a multiple of 4 characters after ignoring
CR/LF, with padding only in the final quantum. -/

/-- Standard-alphabet character for a sextet (Go `StdEncoding` alphabet
`A-Z a-z 0-9 + /` by index). -/
def b64EncChar (s : Nat) : Char :=
  if s < 26 then Char.ofNat (65 + s)
  else if s < 52 then Char.ofNat (97 + (s - 26))
  else if s < 62 then Char.ofNat (48 + (s - 52))
  else if s = 62 then '+'
  else '/'

/-- Inverse alphabet lookup (Go `StdEncoding` decode map); `none` for a
character outside the alphabet (including `=`). -/
def b64DecChar (c : Char) : Option Nat :=
  let n := c.toNat
  if 65 ≤ n ∧ n ≤ 90 then some (n - 65)
  else if 97 ≤ n ∧ n ≤ 122 then some (n - 97 + 26)
  else if 48 ≤ n ∧ n ≤ 57 then some (n - 48 + 52)
  else if c = '+' then some 62
  else if c = '/' then some 63
  else none

/-- Base64-encode a byte list (Go `StdEncoding.EncodeToString`). -/
def b64Encode : List Nat → List Char
  | [] => []
  | [a] => [b64EncChar (a / 4), b64EncChar (a % 4 * 16), '=', '=']
  | [a, b] => [b64EncChar (a / 4), b64EncChar (a % 4 * 16 + b / 16),
               b64EncChar (b % 16 * 4), '=']
  | a :: b :: c :: rest =>
      b64EncChar (a / 4) :: b64EncChar (a % 4 * 16 + b / 16) ::
      b64EncChar (b % 16 * 4 + c / 64) :: b64EncChar (c % 64) ::
      b64Encode rest

/-- Decode 4-character quanta; padding (`=`) is accepted only in the final
quantum, as in Go's strict `StdEncoding` decoder. -/
def b64DecodeQuanta : List Char → Option (List Nat)
  | [] => some []
  | c1 :: c2 :: c3 :: c4 :: rest =>
      match b64DecChar c1, b64DecChar c2 with
      | some s1, some s2 =>
          if c3 = '=' then
            if c4 = '=' ∧ rest = [] then some [s1 * 4 + s2 / 16] else none
          else
            match b64DecChar c3 with
            | some s3 =>
                if c4 = '=' then
                  if rest = [] then some [s1 * 4 + s2 / 16, s2 % 16 * 16 + s3 / 4]
                  else none
                else
                  match b64DecChar c4 with
                  | some s4 =>
                      (b64DecodeQuanta rest).map
                        (fun tl => (s1 * 4 + s2 / 16) :: (s2 % 16 * 16 + s3 / 4) ::
                                   (s3 % 4 * 64 + s4) :: tl)
                  | none => none
            | none => none
      | _, _ => none
  | _ => none

/-- Model of Go `StdEncoding.DecodeString`: CR and LF are ignored, then the
input must consist of whole 4-character quanta; `none` models
`CorruptInputError`. -/
def b64Decode (s : List Char) : Option (List Nat) :=
  b64DecodeQuanta (s.filter (fun c => ¬(c = '\r' ∨ c = '\n')))

/-! ### Base64 round-trip -/

/-- The decode map inverts the alphabet on every sextet. -/
theorem b64DecChar_b64EncChar : ∀ s < 64, b64DecChar (b64EncChar s) = some s := by
  decide

/-- Alphabet characters are never padding, CR or LF. -/
theorem b64EncChar_notSpecial :
    ∀ s < 64, ¬(b64EncChar s = '=' ∨ b64EncChar s = '\r' ∨ b64EncChar s = '\n') := by
  decide

/-- Decoding whole quanta inverts the encoder on byte lists. -/
theorem b64DecodeQuanta_b64Encode :
    ∀ bs : List Nat, (∀ b ∈ bs, b < 256) → b64DecodeQuanta (b64Encode bs) = some bs
  | [], _ => rfl
  | [a], h => by
      have ha : a < 256 := h a (by simp)
      have h1 := b64DecChar_b64EncChar (a / 4) (by omega)
      have h2 := b64DecChar_b64EncChar (a % 4 * 16) (by omega)
      simp only [b64Encode, b64DecodeQuanta, h1, h2]
      simp only [reduceIte, and_self, Option.some.injEq, List.cons.injEq, and_true]
      omega
  | [a, b], h => by
      have ha : a < 256 := h a (by simp)
      have hb : b < 256 := h b (by simp)
      have h1 := b64DecChar_b64EncChar (a / 4) (by omega)
      have h2 := b64DecChar_b64EncChar (a % 4 * 16 + b / 16) (by omega)
      have h3 := b64DecChar_b64EncChar (b % 16 * 4) (by omega)
      have hne : ¬(b64EncChar (b % 16 * 4) = '=') := fun hc =>
        b64EncChar_notSpecial (b % 16 * 4) (by omega) (Or.inl hc)
      simp only [b64Encode, b64DecodeQuanta, h1, h2, h3, if_neg hne]
      simp only [reduceIte, Option.some.injEq, List.cons.injEq, and_true]
      omega
  | a :: b :: c :: rest, h => by
      have ha : a < 256 := h a (by simp)
      have hb : b < 256 := h b (by simp)
      have hc : c < 256 := h c (by simp)
      have h1 := b64DecChar_b64EncChar (a / 4) (by omega)
      have h2 := b64DecChar_b64EncChar (a % 4 * 16 + b / 16) (by omega)
      have h3 := b64DecChar_b64EncChar (b % 16 * 4 + c / 64) (by omega)
      have h4 := b64DecChar_b64EncChar (c % 64) (by omega)
      have hne3 : ¬(b64EncChar (b % 16 * 4 + c / 64) = '=') := fun hx =>
        b64EncChar_notSpecial (b % 16 * 4 + c / 64) (by omega) (Or.inl hx)
      have hne4 : ¬(b64EncChar (c % 64) = '=') := fun hx =>
        b64EncChar_notSpecial (c % 64) (by omega) (Or.inl hx)
      have ih := b64DecodeQuanta_b64Encode rest (fun x hx => h x (by simp [hx]))
      simp only [b64Encode, b64DecodeQuanta, h1, h2, h3, h4, if_neg hne3, if_neg hne4, ih,
        Option.map_some', Option.some.injEq, List.cons.injEq, and_true]
      omega

/-- Encoded output contains no CR or LF, so the decoder's CR/LF filter is
the identity on it. -/
theorem b64Encode_mem_notCRLF :
    ∀ bs : List Nat, (∀ b ∈ bs, b < 256) →
      ∀ ch ∈ b64Encode bs, ¬(ch = '\r' ∨ ch = '\n')
  | [], _ => by simp [b64Encode]
  | [a], h => by
      have ha : a < 256 := h a (by simp)
      intro ch hch
      simp only [b64Encode, List.mem_cons, List.not_mem_nil, or_false] at hch
      rcases hch with rfl | rfl | rfl | rfl
      · exact fun hx => b64EncChar_notSpecial (a / 4) (by omega) (Or.inr hx)
      · exact fun hx => b64EncChar_notSpecial (a % 4 * 16) (by omega) (Or.inr hx)
      · decide
      · decide
  | [a, b], h => by
      have ha : a < 256 := h a (by simp)
      have hb : b < 256 := h b (by simp)
      intro ch hch
      simp only [b64Encode, List.mem_cons, List.not_mem_nil, or_false] at hch
      rcases hch with rfl | rfl | rfl | rfl
      · exact fun hx => b64EncChar_notSpecial (a / 4) (by omega) (Or.inr hx)
      · exact fun hx => b64EncChar_notSpecial (a % 4 * 16 + b / 16) (by omega) (Or.inr hx)
      · exact fun hx => b64EncChar_notSpecial (b % 16 * 4) (by omega) (Or.inr hx)
      · decide
  | a :: b :: c :: rest, h => by
      have ha : a < 256 := h a (by simp)
      have hb : b < 256 := h b (by simp)
      have hc : c < 256 := h c (by simp)
      intro ch hch
      simp only [b64Encode, List.mem_cons] at hch
      rcases hch with rfl | rfl | rfl | rfl | hch
      · exact fun hx => b64EncChar_notSpecial (a / 4) (by omega) (Or.inr hx)
      · exact fun hx => b64EncChar_notSpecial (a % 4 * 16 + b / 16) (by omega) (Or.inr hx)
      · exact fun hx => b64EncChar_notSpecial (b % 16 * 4 + c / 64) (by omega) (Or.inr hx)
      · exact fun hx => b64EncChar_notSpecial (c % 64) (by omega) (Or.inr hx)
      · exact b64Encode_mem_notCRLF rest (fun x hx => h x (by simp [hx])) ch hch

/-- Base64 round-trip: decoding the encoding of any byte list returns it. -/
theorem b64Decode_b64Encode (bs : List Nat) (h : ∀ b ∈ bs, b < 256) :
    b64Decode (b64Encode bs) = some bs := by
  unfold b64Decode
  rw [List.filter_eq_self.mpr
    (fun ch hch => by
      have := b64Encode_mem_notCRLF bs h ch hch
      simpa using this)]
  exact b64DecodeQuanta_b64Encode bs h

/-! ## Password manager (`PasswordManager` in `src/unnamed/part_002`)

The AES-GCM primitive is Go library code (`crypto/cipher`), not repository
code: the embedding is parameterized by `sealFn` / `openFn`, the models of
`gcm.Seal` / `gcm.Open` under the key derived from the store file path
(`sha256(filePath ++ "lazyssh-password-encryption-key")`).  Using the same
`sealFn` / `openFn` pair on both sides models encrypting and decrypting
under the same store path.  The GCM library contract is taken as a
hypothesis where a claim needs it. -/

/-- Model of `PasswordManager.EncryptPassword`: the fresh random 12-byte
GCM nonce drawn by the call is the explicit `nonce` parameter; the envelope
is `base64(nonce ++ ciphertext)`. -/
def EncryptPassword (sealFn : List Nat → List Nat → List Nat)
    (nonce password : List Nat) : List Char :=
  b64Encode (nonce ++ sealFn nonce password)

/-- Model of `PasswordManager.DecryptPassword`: base64-decode, reject
decodings shorter than the 12-byte nonce, split at the nonce width, open
under the derived key; error strings follow the Go code / library. -/
def DecryptPassword (openFn : List Nat → List Nat → Option (List Nat))
    (encryptedPassword : List Char) : Except String (List Nat) :=
  match b64Decode encryptedPassword with
  | none => Except.error "illegal base64 data"
  | some encrypted =>
      if encrypted.length < 12 then Except.error "encrypted password too short"
      else
        match openFn (encrypted.take 12) (encrypted.drop 12) with
        | some plaintext => Except.ok plaintext
        | none => Except.error "cipher: message authentication failed"

/-- A concrete stand-in AEAD used only to instantiate witnesses: the
"ciphertext" is the plaintext with a fixed tag byte appended. -/
def toySeal (_nonce plaintext : List Nat) : List Nat := plaintext ++ [7]

/-- Opener for `toySeal`: accepts exactly its images. -/
def toyOpen (_nonce c : List Nat) : Option (List Nat) :=
  if c = c.dropLast ++ [7] then some c.dropLast else none

/-- `toyOpen` accepts only `toySeal` images. -/
theorem toyOpen_accepts (n c p : List Nat) (h : toyOpen n c = some p) :
    c = toySeal n p := by
  unfold toyOpen at h
  split at h
  · rename_i hcond
    simp only [Option.some.injEq] at h
    subst h
    exact hcond
  · exact absurd h (by simp)

/-- `toyOpen` inverts `toySeal`. -/
theorem toyOpen_toySeal (n p : List Nat) : toyOpen n (toySeal n p) = some p := by
  unfold toyOpen toySeal
  rw [if_pos (by rw [List.dropLast_concat])]
  rw [List.dropLast_concat]

/-! ## Password store lookup (`GetServerPassword`, `HasPassword`) -/

/-- Model of `PasswordManager.GetServerPassword`: `loadRes` is the outcome
of `loadPasswords` (the stored map, or a load error); error strings follow
the Go code with the quote characters around interpolated values elided. -/
def GetServerPassword (loadRes : Except String (List (String × String)))
    (aliasName : String) : Except String String :=
  match loadRes with
  | Except.error e => Except.error ("load passwords: " ++ e)
  | Except.ok passwords =>
      match passwords.lookup aliasName with
      | some v => Except.ok v
      | none => Except.error ("password for server " ++ aliasName ++ " not found")

/-- Model of `Repository.HasPassword`: a lookup error whose message
contains the substring `not found` is translated to `false`; any other
error is returned. -/
def HasPassword (loadRes : Except String (List (String × String)))
    (aliasName : String) : Except String Bool :=
  match GetServerPassword loadRes aliasName with
  | Except.ok _ => Except.ok true
  | Except.error e =>
      if strContains e "not found" then Except.ok false else Except.error e

/-! ## Helper lemmas on the string model -/

/-- A substring of the right part of a concatenation is a substring of the
whole. -/
theorem containsAux_append_right (needle a b : List Char)
    (h : containsAux needle b = true) : containsAux needle (a ++ b) = true := by
  induction a with
  | nil => simpa using h
  | cons c rest ih =>
      simp only [List.cons_append, containsAux, Bool.or_eq_true]
      exact Or.inr ih

/-- `strContains` is monotone in a right-appended haystack. -/
theorem strContains_append_right (a b sub : String)
    (h : strContains b sub = true) : strContains (a ++ b) sub = true := by
  unfold strContains at *
  rw [String.data_append]
  exact containsAux_append_right sub.data a.data b.data h

/-! ## Claims about the password manager -/

/-- C1: for every plaintext, decrypting the envelope produced by encrypting
it under the same store file path (same derived key, hence the same
`sealFn` / `openFn` pair) returns the plaintext, for every fresh 12-byte
nonce: the envelope is `base64(nonce ++ ciphertext)` and decryption splits
at the fixed nonce width.  The GCM library contract (`hopen`) and the byte
bounds of the Go `[]byte` values are hypotheses. -/
theorem C1_decrypt_encrypt_roundtrip
    (sealFn : List Nat → List Nat → List Nat)
    (openFn : List Nat → List Nat → Option (List Nat))
    (nonce password : List Nat)
    (hopen : openFn nonce (sealFn nonce password) = some password)
    (hnl : nonce.length = 12)
    (hnb : ∀ x ∈ nonce, x < 256)
    (hsb : ∀ x ∈ sealFn nonce password, x < 256)
    (_hne : password ≠ []) :
    DecryptPassword openFn (EncryptPassword sealFn nonce password) =
      Except.ok password := by
  unfold EncryptPassword DecryptPassword
  have hb : ∀ x ∈ nonce ++ sealFn nonce password, x < 256 := by
    intro x hx
    rcases List.mem_append.mp hx with hx | hx
    · exact hnb x hx
    · exact hsb x hx
  simp only [b64Decode_b64Encode _ hb]
  have hlen : ¬((nonce ++ sealFn nonce password).length < 12) := by
    rw [List.length_append, hnl]; omega
  rw [if_neg hlen]
  have htake : (nonce ++ sealFn nonce password).take 12 = nonce := by
    rw [← hnl]; exact List.take_left nonce _
  have hdrop : (nonce ++ sealFn nonce password).drop 12 = sealFn nonce password := by
    rw [← hnl]; exact List.drop_left nonce _
  rw [htake, hdrop, hopen]

/-- Witness for C1 at a concrete nonce and plaintext, with the stand-in
AEAD `toySeal` / `toyOpen`. -/
theorem C1_decrypt_encrypt_roundtrip_witness :
    DecryptPassword toyOpen
      (EncryptPassword toySeal (List.replicate 12 0) [104, 105]) =
      Except.ok [104, 105] :=
  C1_decrypt_encrypt_roundtrip toySeal toyOpen (List.replicate 12 0) [104, 105]
    (toyOpen_toySeal _ _) (by decide) (by decide) (by decide) (by decide)

/-- C4: decrypting an envelope whose ciphertext portion is not an
encryption output for the carried nonce (under the derived key) fails with
the authentication error and never returns a plaintext.  `hacc` is the GCM
property that the opener accepts exactly the sealer's images. -/
theorem C4_tampered_envelope_fails
    (sealFn : List Nat → List Nat → List Nat)
    (openFn : List Nat → List Nat → Option (List Nat))
    (nonce ct : List Nat)
    (hacc : ∀ n c p, openFn n c = some p → c = sealFn n p)
    (htam : ∀ p, ct ≠ sealFn nonce p)
    (hnl : nonce.length = 12)
    (hnb : ∀ x ∈ nonce, x < 256)
    (hcb : ∀ x ∈ ct, x < 256) :
    DecryptPassword openFn (b64Encode (nonce ++ ct)) =
      Except.error "cipher: message authentication failed" := by
  unfold DecryptPassword
  have hb : ∀ x ∈ nonce ++ ct, x < 256 := by
    intro x hx
    rcases List.mem_append.mp hx with hx | hx
    · exact hnb x hx
    · exact hcb x hx
  simp only [b64Decode_b64Encode _ hb]
  have hlen : ¬((nonce ++ ct).length < 12) := by
    rw [List.length_append, hnl]; omega
  rw [if_neg hlen]
  have htake : (nonce ++ ct).take 12 = nonce := by
    rw [← hnl]; exact List.take_left nonce _
  have hdrop : (nonce ++ ct).drop 12 = ct := by
    rw [← hnl]; exact List.drop_left nonce _
  rw [htake, hdrop]
  cases hres : openFn nonce ct with
  | none => rfl
  | some p => exact absurd (hacc nonce ct p hres) (htam p)

/-- Witness for C4: an empty ciphertext portion is never a `toySeal` image,
and decryption of its envelope fails with the authentication error. -/
theorem C4_tampered_envelope_fails_witness :
    DecryptPassword toyOpen (b64Encode (List.replicate 12 0 ++ [])) =
      Except.error "cipher: message authentication failed" :=
  C4_tampered_envelope_fails toySeal toyOpen (List.replicate 12 0) []
    toyOpen_accepts
    (fun p hp => by simp [toySeal] at hp)
    (by decide) (by decide) (by decide)

/-- C10: `DecryptPassword` is total on arbitrary input strings: an input
that is not valid base64 yields an error, and so does an input whose
decoding is shorter than the 12-byte nonce width; no out-of-range access
can occur. -/
theorem C10_decrypt_total_on_malformed_input
    (openFn : List Nat → List Nat → Option (List Nat)) (s : List Char) :
    (b64Decode s = none →
      DecryptPassword openFn s = Except.error "illegal base64 data") ∧
    (∀ bs, b64Decode s = some bs → bs.length < 12 →
      DecryptPassword openFn s = Except.error "encrypted password too short") := by
  constructor
  · intro hdec
    unfold DecryptPassword
    rw [hdec]
  · intro bs hdec hshort
    unfold DecryptPassword
    rw [hdec]
    exact if_pos hshort

/-- Witness for C10: a non-base64 input and a too-short valid envelope both
produce the corresponding errors. -/
theorem C10_decrypt_total_on_malformed_input_witness :
    DecryptPassword toyOpen "!A==".data = Except.error "illegal base64 data" ∧
    DecryptPassword toyOpen "TQ==".data =
      Except.error "encrypted password too short" :=
  ⟨(C10_decrypt_total_on_malformed_input toyOpen "!A==".data).1 (by decide),
   (C10_decrypt_total_on_malformed_input toyOpen "TQ==".data).2 [77]
     (by decide) (by decide)⟩

/-! ## Config document model (`github.com/kevinburke/ssh_config` as used
by the repository: `Config.Hosts`, `Host.Patterns` / `Host.Nodes`,
`Pattern.Str`, `KV` nodes; the repository only inspects `KV` nodes, all
other node kinds are carried verbatim as `other`). -/

/-- A node of a host block: a key/value directive or any other preserved
content (comments, empty lines, includes). -/
inductive Node where
  | kv (key value : String)
  | other (raw : String)
deriving DecidableEq, Repr

/-- A host block: match patterns (each pattern's `Str`) and directive
nodes.  Layout fields that the repository sets on new blocks are kept. -/
structure Host where
  patterns : List String
  nodes : List Node
  leadingSpace : Nat := 0
  eolComment : String := ""
deriving DecidableEq, Repr

/-- The parsed config document (`ssh_config.Config`). -/
structure SSHConfig where
  hosts : List Host
deriving DecidableEq, Repr

/-- `domain.Server` as used by the repository (timestamps and counters
live in the metadata store and are irrelevant to these claims; `port` is a
Go `int`, modelled as `Int` so that `%d` rendering matches). -/
structure Server where
  aliasName : String
  host : String
  user : String
  port : Int
  identityFiles : List String := []
  password : String := ""
  tags : List String := []
  aliases : List String := []
deriving DecidableEq, Repr

/-- Decimal digits of a natural number (fuel-structured so that concrete
values reduce in the kernel); the fuel is always sufficient at `n + 1`. -/
def natDigitsAux : Nat → Nat → List Char
  | 0, _ => []
  | fuel + 1, n =>
      if n < 10 then [Char.ofNat (48 + n)]
      else natDigitsAux fuel (n / 10) ++ [Char.ofNat (48 + n % 10)]

/-- Model of Go `fmt.Sprintf` with verb `%d` on an `int`. -/
def intDecimal (i : Int) : String :=
  if i < 0 then "-" ++ String.mk (natDigitsAux (i.natAbs + 1) i.natAbs)
  else String.mk (natDigitsAux (i.toNat + 1) i.toNat)

/-! ### `crud.go` -/

/-- Model of `Repository.hostContainsPattern`. -/
def hostContainsPattern (host : Host) (target : String) : Bool :=
  host.patterns.any (fun p => p = target)

/-- Model of `Repository.findHostByAlias` (first block whose pattern list
contains the alias, in document order). -/
def findHostByAlias (cfg : SSHConfig) (aliasName : String) : Option Host :=
  cfg.hosts.find? (fun h => hostContainsPattern h aliasName)

/-- Model of `Repository.serverExists`. -/
def serverExists (cfg : SSHConfig) (aliasName : String) : Bool :=
  (findHostByAlias cfg aliasName).isSome

/-- Model of `Repository.addKVNodeIfNotEmpty`: appends a directive node
only when the value is non-empty. -/
def addKVNodeIfNotEmpty (host : Host) (key value : String) : Host :=
  if value = "" then host
  else { host with nodes := host.nodes ++ [Node.kv key value] }

/-- Model of `Repository.createHostFromServer`: a fresh block whose
directives are added through `addKVNodeIfNotEmpty`; the port is rendered
with `%d`. -/
def createHostFromServer (server : Server) : Host :=
  let host : Host :=
    { patterns := [server.aliasName], nodes := [], leadingSpace := 4,
      eolComment := "Added by dogssh" }
  let host := addKVNodeIfNotEmpty host "HostName" server.host
  let host := addKVNodeIfNotEmpty host "User" server.user
  let host := addKVNodeIfNotEmpty host "Port" (intDecimal server.port)
  server.identityFiles.foldl
    (fun h f => addKVNodeIfNotEmpty h "IdentityFile" f) host

/-- Model of `Repository.getProperKeyCase`. -/
def getProperKeyCase (key : String) : String :=
  if toLowerStr key = "hostname" then "HostName"
  else if toLowerStr key = "user" then "User"
  else if toLowerStr key = "port" then "Port"
  else if toLowerStr key = "identityfile" then "IdentityFile"
  else key

/-- Update the value of the first `KV` node whose key folds to the given
key; `none` when no node matches (helper for `updateOrAddKVNode`, which
mutates the first matching node in place and returns). -/
def updateFirstKV (nodes : List Node) (keyLower newValue : String) :
    Option (List Node) :=
  match nodes with
  | [] => none
  | Node.kv k v :: rest =>
      if equalFold k keyLower then some (Node.kv k newValue :: rest)
      else (updateFirstKV rest keyLower newValue).map (Node.kv k v :: ·)
  | n :: rest => (updateFirstKV rest keyLower newValue).map (n :: ·)

/-- Model of `Repository.updateOrAddKVNode`. -/
def updateOrAddKVNode (host : Host) (key newValue : String) : Host :=
  match updateFirstKV host.nodes (toLowerStr key) newValue with
  | some nodes => { host with nodes := nodes }
  | none =>
      { host with nodes := host.nodes ++ [Node.kv (getProperKeyCase key) newValue] }

/-- The update pairs of `updateHostNodes` in source order; Go iterates the
`updates` map in an unspecified order, so the operations below take the
iteration order as a parameter ranging over permutations of this list. -/
def hostUpdates (newServer : Server) : List (String × String) :=
  [("hostname", newServer.host), ("user", newServer.user),
   ("port", intDecimal newServer.port)]

/-- Model of the update loop of `updateHostNodes`: non-empty values are
upserted in the given iteration order. -/
def applyUpdates (host : Host) (updates : List (String × String)) : Host :=
  updates.foldl
    (fun h kv => if kv.2 = "" then h else updateOrAddKVNode h kv.1 kv.2) host

/-- Does a node carry the given directive key, folding case (the predicate
of `removeKey` inside `updateHostNodes`)? -/
def nodeHasKey (key : String) : Node → Bool
  | Node.kv k _ => equalFold k key
  | Node.other _ => false

/-- Model of `Repository.updateHostNodes`: upsert host/user/port (map
iteration order given by `order`), drop every `IdentityFile`-keyed node,
then append the new identity files through `addKVNodeIfNotEmpty`. -/
def updateHostNodes (host : Host) (newServer : Server)
    (order : List (String × String)) : Host :=
  let host := applyUpdates host order
  let host := { host with
    nodes := host.nodes.filter (fun n => !nodeHasKey "IdentityFile" n) }
  newServer.identityFiles.foldl
    (fun h f => addKVNodeIfNotEmpty h "IdentityFile" f) host

/-- Model of the pattern rewrite of `UpdateServer` (lines 134–143 of
`ssh_config_file_repo.go`): every pattern equal to the old alias is
replaced by the new alias, every other pattern is kept in place; the
block's nodes are untouched by this step. -/
def renameHostPatterns (host : Host) (oldAlias newAlias : String) : Host :=
  { host with
    patterns := host.patterns.map (fun p => if p = oldAlias then newAlias else p) }

/-- Model of `Repository.removeHostByAlias`: removes the first block whose
patterns contain the alias; the list is unchanged when none matches. -/
def removeHostByAlias (hosts : List Host) (aliasName : String) : List Host :=
  match hosts with
  | [] => []
  | h :: rest =>
      if hostContainsPattern h aliasName then rest
      else h :: removeHostByAlias rest aliasName

/-- Model of `Repository.matchesQuery`: the query (already lowered by the
caller) must occur in the lowered host, user, some tag or some alias. -/
def matchesQuery (server : Server) (query : String) : Bool :=
  let fields := [toLowerStr server.host, toLowerStr server.user]
      ++ server.tags.map toLowerStr ++ server.aliases.map toLowerStr
  fields.any (fun f => strContains f query)

/-- Model of `Repository.filterServers`: lower the query once, keep the
matching servers in order. -/
def filterServers (servers : List Server) (query : String) : List Server :=
  servers.filter (fun s => matchesQuery s (toLowerStr query))

/-- Model of the query step of `Repository.ListServers` (lines 80–84): the
input is the merged record list; an empty query returns it unfiltered. -/
def listServersQuery (servers : List Server) (query : String) : List Server :=
  if query = "" then servers else filterServers servers query

/-! ## Repository state and the facade operations
(`ssh_config_file_repo.go`)

Each operation is a load → mutate → save transaction over the config
document, the password store and the metadata store.  The fallible file
effects (config load/save, password-store write, metadata-store write) are
explicit boolean outcome parameters; per §4.3 of the spec a failed atomic
save leaves the target file unchanged. -/

/-- Modelled from the spec: a metadata record of the sidecar store
(`ServerMetadata`, whose source is not under `src/`): pin timestamp, last
use, use count, tags (§3 / §6 of the spec). -/
structure ServerMetadata where
  pinnedAt : Option Nat := none
  lastUsedAt : Option Nat := none
  useCount : Nat := 0
  tags : List String := []
deriving DecidableEq, Repr

/-- Set a key in the metadata map. -/
def setMeta (m : List (String × ServerMetadata)) (k : String) (v : ServerMetadata) :
    List (String × ServerMetadata) :=
  match m with
  | [] => [(k, v)]
  | (k', v') :: rest => if k' = k then (k, v) :: rest else (k', v') :: setMeta rest k v

/-- Delete a key from the metadata map. -/
def eraseMeta (m : List (String × ServerMetadata)) (k : String) :
    List (String × ServerMetadata) :=
  match m with
  | [] => []
  | (k', v') :: rest => if k' = k then rest else (k', v') :: eraseMeta rest k

/-- Modelled from the spec: `metadataManager.updateServer` (source not
under `src/`; only its callers are).  It writes the record keyed to the new
identity, carrying over the record stored under the old identity first
(§4.6), and per §7 a metadata-store error during a config-mutating
operation is caught, logged and swallowed, so the call reports success
regardless of the store outcome `storeOk`; on a store failure the on-disk
mapping is unchanged. -/
def metadataUpdateServer (md : List (String × ServerMetadata))
    (newAlias oldAlias : String) (storeOk : Bool) :
    Except String Unit × List (String × ServerMetadata) :=
  if storeOk then
    let carried := match md.lookup oldAlias with
      | some rec => setMeta (eraseMeta md oldAlias) newAlias rec
      | none => setMeta md newAlias {}
    (Except.ok (), carried)
  else (Except.ok (), md)

/-- Modelled from the spec: `metadataManager.deleteServer` (source not
under `src/`): removes the record; store errors are swallowed per §7. -/
def metadataDeleteServer (md : List (String × ServerMetadata))
    (aliasName : String) (storeOk : Bool) :
    Except String Unit × List (String × ServerMetadata) :=
  if storeOk then (Except.ok (), eraseMeta md aliasName)
  else (Except.ok (), md)

/-- The three on-disk stores as observed through one repository
transaction. -/
structure RepoState where
  config : SSHConfig
  passwords : List (String × String)
  metadata : List (String × ServerMetadata)
deriving DecidableEq, Repr

/-- Model of `PasswordManager.UpdateServerPassword` as invoked by the
facade: a no-op for an empty password, otherwise the envelope is upserted
and the mapping saved; `storeOk` is the combined load/save outcome.  The
stored value is the AES-GCM envelope of the password; no claim below
inspects it, so the plaintext stands in for the envelope string. -/
def updateServerPasswordOp (pw : List (String × String))
    (aliasName newPassword : String) (storeOk : Bool) :
    Except String Unit × List (String × String) :=
  if newPassword = "" then (Except.ok (), pw)
  else if storeOk then (Except.ok (), setAssoc pw aliasName newPassword)
  else (Except.error "password store failure", pw)

/-- Model of `PasswordManager.DeleteServerPassword`: delete and save;
`storeOk` is the combined load/save outcome. -/
def deleteServerPasswordOp (pw : List (String × String))
    (aliasName : String) (storeOk : Bool) :
    Except String Unit × List (String × String) :=
  if storeOk then (Except.ok (), eraseAssoc pw aliasName)
  else (Except.error "password store failure", pw)

/-- Model of `Repository.AddServer`: load config, reject an existing
alias, append the new block, save, then best-effort password write
(error logged and swallowed) and the metadata update, whose result is
returned. -/
def AddServer (st : RepoState) (server : Server)
    (loadOk saveOk pwStoreOk metaStoreOk : Bool) :
    Except String Unit × RepoState :=
  if ¬loadOk then (Except.error "failed to load config", st)
  else if serverExists st.config server.aliasName then
    (Except.error ("server with alias " ++ server.aliasName ++ " already exists"), st)
  else
    let cfg : SSHConfig :=
      { hosts := st.config.hosts ++ [createHostFromServer server] }
    if ¬saveOk then (Except.error "failed to save config", st)
    else
      let st := { st with config := cfg }
      let st :=
        if server.password ≠ "" then
          { st with
            passwords :=
              (updateServerPasswordOp st.passwords server.aliasName
                server.password pwStoreOk).2 }
        else st
      let (res, md) :=
        metadataUpdateServer st.metadata server.aliasName server.aliasName metaStoreOk
      (res, { st with metadata := md })

/-- Apply a mutation to the first block whose patterns contain the alias
(the block `findHostByAlias` returns; Go mutates it through a pointer). -/
def updateFirstHost (hosts : List Host) (aliasName : String) (f : Host → Host) :
    List Host :=
  match hosts with
  | [] => []
  | h :: rest =>
      if hostContainsPattern h aliasName then f h :: rest
      else h :: updateFirstHost rest aliasName f

/-- Model of `Repository.UpdateServer`: load config, require the old
alias's block, reject a rename onto an existing alias, rewrite the
matching patterns, update the block's nodes (`order` is the Go map
iteration order over `hostUpdates newServer`), save, then best-effort
password write and the metadata migration, whose result is returned. -/
def UpdateServer (st : RepoState) (server newServer : Server)
    (order : List (String × String))
    (loadOk saveOk pwStoreOk metaStoreOk : Bool) :
    Except String Unit × RepoState :=
  if ¬loadOk then (Except.error "failed to load config", st)
  else
    match findHostByAlias st.config server.aliasName with
    | none =>
        (Except.error ("server with alias " ++ server.aliasName ++ " not found"), st)
    | some _ =>
        if server.aliasName ≠ newServer.aliasName ∧
            serverExists st.config newServer.aliasName then
          (Except.error
            ("server with alias " ++ newServer.aliasName ++ " already exists"), st)
        else
          let mutate : Host → Host := fun h =>
            let h := if server.aliasName ≠ newServer.aliasName then
                renameHostPatterns h server.aliasName newServer.aliasName
              else h
            updateHostNodes h newServer order
          let cfg : SSHConfig :=
            { hosts := updateFirstHost st.config.hosts server.aliasName mutate }
          if ¬saveOk then (Except.error "failed to save config", st)
          else
            let st := { st with config := cfg }
            let st :=
              if newServer.password ≠ "" then
                { st with
                  passwords :=
                    (updateServerPasswordOp st.passwords newServer.aliasName
                      newServer.password pwStoreOk).2 }
              else st
            let (res, md) :=
              metadataUpdateServer st.metadata newServer.aliasName
                server.aliasName metaStoreOk
            (res, { st with metadata := md })

/-- Model of `Repository.DeleteServer`: load config, remove the block (an
unchanged host count means the alias was absent), save, then best-effort
password delete (warning logged and swallowed) and the metadata delete,
whose result is returned. -/
def DeleteServer (st : RepoState) (server : Server)
    (loadOk saveOk pwStoreOk metaStoreOk : Bool) :
    Except String Unit × RepoState :=
  if ¬loadOk then (Except.error "failed to load config", st)
  else
    let hosts := removeHostByAlias st.config.hosts server.aliasName
    if hosts.length = st.config.hosts.length then
      (Except.error ("server with alias " ++ server.aliasName ++ " not found"), st)
    else
      if ¬saveOk then (Except.error "failed to save config", st)
      else
        let st := { st with config := { hosts := hosts } }
        let st :=
          { st with
            passwords :=
              (deleteServerPasswordOp st.passwords server.aliasName pwStoreOk).2 }
        let (res, md) := metadataDeleteServer st.metadata server.aliasName metaStoreOk
        (res, { st with metadata := md })

/-! ## Helper lemmas for the config-model claims -/

/-- With positive fuel the digit renderer never returns an empty list. -/
theorem natDigitsAux_ne_nil (fuel n : Nat) : natDigitsAux (fuel + 1) n ≠ [] := by
  unfold natDigitsAux
  split
  · simp
  · simp

/-- The `%d` rendering of an `int` is never the empty string. -/
theorem intDecimal_ne_empty (i : Int) : intDecimal i ≠ "" := by
  unfold intDecimal
  split
  · intro h
    have : ("-" ++ String.mk (natDigitsAux (i.natAbs + 1) i.natAbs)).data = "".data :=
      congrArg String.data h
    simp [String.data_append] at this
  · intro h
    have : (String.mk (natDigitsAux (i.toNat + 1) i.toNat)).data = "".data :=
      congrArg String.data h
    exact natDigitsAux_ne_nil i.toNat i.toNat (by simpa using this)

/-- Folding `addKVNodeIfNotEmpty` over the identity-file list appends one
`IdentityFile` node per non-empty entry, in order. -/
theorem foldl_addIdFiles (files : List String) (host : Host) :
    (files.foldl (fun h f => addKVNodeIfNotEmpty h "IdentityFile" f) host).nodes =
      host.nodes ++ (files.filter (fun f => f ≠ "")).map
        (fun f => Node.kv "IdentityFile" f) := by
  induction files generalizing host with
  | nil => simp
  | cons f rest ih =>
      simp only [List.foldl_cons]
      by_cases hf : f = ""
      · rw [show addKVNodeIfNotEmpty host "IdentityFile" f = host by
          simp [addKVNodeIfNotEmpty, hf]]
        rw [ih]
        simp [hf]
      · rw [show addKVNodeIfNotEmpty host "IdentityFile" f =
            { host with nodes := host.nodes ++ [Node.kv "IdentityFile" f] } by
          simp [addKVNodeIfNotEmpty, hf]]
        rw [ih]
        simp [hf, List.append_assoc]

/-- The spec-modelled metadata update always reports success (store errors
are swallowed per §7 of the spec). -/
theorem metadataUpdateServer_ok (md : List (String × ServerMetadata))
    (newAlias oldAlias : String) (storeOk : Bool) :
    (metadataUpdateServer md newAlias oldAlias storeOk).1 = Except.ok () := by
  unfold metadataUpdateServer
  split <;> rfl

/-- The spec-modelled metadata delete always reports success. -/
theorem metadataDeleteServer_ok (md : List (String × ServerMetadata))
    (aliasName : String) (storeOk : Bool) :
    (metadataDeleteServer md aliasName storeOk).1 = Except.ok () := by
  unfold metadataDeleteServer
  split <;> rfl

/-! ## Claims about the config document operations -/

/-- C5 (amended): the block built by `createHostFromServer` contains a
`HostName`, `User` and `IdentityFile` directive exactly for the non-empty
field values; the `Port` directive is always emitted because the `%d`
rendering of the port is never the empty string (a zero port yields a
`Port 0` node). -/
theorem C5_createHost_directive_emission (server : Server) :
    (createHostFromServer server).nodes =
      (if server.host = "" then [] else [Node.kv "HostName" server.host]) ++
      (if server.user = "" then [] else [Node.kv "User" server.user]) ++
      [Node.kv "Port" (intDecimal server.port)] ++
      (server.identityFiles.filter (fun f => f ≠ "")).map
        (fun f => Node.kv "IdentityFile" f) := by
  unfold createHostFromServer
  rw [foldl_addIdFiles]
  by_cases hh : server.host = "" <;> by_cases hu : server.user = "" <;>
    simp [addKVNodeIfNotEmpty, hh, hu, intDecimal_ne_empty server.port]

/-- Counterexample to C5 as stated: a zero port is rendered as `0`, which
is non-empty, so the built block does contain a `Port` directive for the
zero field. -/
theorem C5_counterexample :
    (createHostFromServer
      { aliasName := "zero", host := "", user := "", port := 0 }).nodes =
      [Node.kv "Port" "0"] := by
  decide

/-- C6: the query step of `ListServers` returns the merged records
unfiltered for an empty query, and otherwise exactly those records whose
host, user, some tag or some alias contains the query case-insensitively,
preserving their order. -/
theorem C6_list_query_filter (servers : List Server) (query : String) :
    listServersQuery servers query =
      if query = "" then servers
      else
        servers.filter (fun s =>
          strContains (toLowerStr s.host) (toLowerStr query) ||
          strContains (toLowerStr s.user) (toLowerStr query) ||
          s.tags.any (fun t => strContains (toLowerStr t) (toLowerStr query)) ||
          s.aliases.any (fun a => strContains (toLowerStr a) (toLowerStr query))) := by
  unfold listServersQuery
  by_cases hq : query = ""
  · simp [hq]
  · rw [if_neg hq, if_neg hq]
    unfold filterServers
    congr 1
    funext s
    unfold matchesQuery
    simp only [List.any_cons, List.any_nil, List.any_append, List.any_map,
      Function.comp, Bool.or_false, Bool.or_assoc]
    rfl

/-- C7 (amended): after `updateHostNodes`, the `IdentityFile` directive
family of the block consists of exactly one node per non-empty entry of
the new identity-file list, in the list's order, for every map iteration
order of the host/user/port updates; every pre-existing node whose key
folds to `identityfile` has been removed. -/
theorem C7_identityFile_total_replacement (host : Host) (newServer : Server)
    (order : List (String × String)) :
    (updateHostNodes host newServer order).nodes.filter (nodeHasKey "IdentityFile") =
      (newServer.identityFiles.filter (fun f => f ≠ "")).map
        (fun f => Node.kv "IdentityFile" f) := by
  unfold updateHostNodes
  rw [foldl_addIdFiles]
  rw [List.filter_append, List.filter_filter]
  have h1 : ∀ n : Node,
      (nodeHasKey "IdentityFile" n && !nodeHasKey "IdentityFile" n) = false := by
    intro n
    cases nodeHasKey "IdentityFile" n <;> rfl
  simp only [h1, List.filter_false, List.nil_append]
  rw [List.filter_map]
  have h2 : ((nodeHasKey "IdentityFile") ∘ fun f => Node.kv "IdentityFile" f) =
      fun _ => true := by
    funext f
    simp [Function.comp, nodeHasKey, equalFold]
  rw [h2, List.filter_true]

/-- Counterexample to C7 as stated: an empty string entry of the new
identity-file list produces no node, so the block does not contain one
node per entry of the new list. -/
theorem C7_counterexample :
    ¬((updateHostNodes
        { patterns := ["a"], nodes := [Node.kv "IdentityFile" "old"] }
        { aliasName := "a", host := "h", user := "u", port := 22,
          identityFiles := [""] }
        (hostUpdates
          { aliasName := "a", host := "h", user := "u", port := 22,
            identityFiles := [""] })).nodes.filter (nodeHasKey "IdentityFile") =
      [""].map (fun f => Node.kv "IdentityFile" f)) := by
  decide

/-- C9: the pattern rewrite of `UpdateServer` replaces exactly the
patterns equal to the old alias by the new alias, keeps every other
pattern unchanged in its position, and leaves the block's directive nodes
untouched. -/
theorem C9_rename_rewrites_only_matching_patterns
    (host : Host) (oldAlias newAlias : String) :
    (renameHostPatterns host oldAlias newAlias).nodes = host.nodes ∧
    ∀ i : Nat,
      (renameHostPatterns host oldAlias newAlias).patterns[i]? =
        (host.patterns[i]?).map (fun p => if p = oldAlias then newAlias else p) := by
  constructor
  · rfl
  · intro i
    simp [renameHostPatterns, List.getElem?_map]

/-! ## Claims about the facade transactions -/

/-- C2: once the config load and save have succeeded, every
config-mutating operation reports success regardless of the password-store
and metadata-store outcomes: the password error is logged and swallowed by
the facade, and the metadata manager swallows its store errors (spec §7;
its source is not under `src/`). -/
theorem C2_store_errors_swallowed_after_save
    (st : RepoState) (sAdd sOld sNew sDel : Server)
    (order : List (String × String)) (pwStoreOk metaStoreOk : Bool) :
    (serverExists st.config sAdd.aliasName = false →
      (AddServer st sAdd true true pwStoreOk metaStoreOk).1 = Except.ok ()) ∧
    ((findHostByAlias st.config sOld.aliasName).isSome →
      (sOld.aliasName = sNew.aliasName ∨
        serverExists st.config sNew.aliasName = false) →
      (UpdateServer st sOld sNew order true true pwStoreOk metaStoreOk).1 =
        Except.ok ()) ∧
    ((removeHostByAlias st.config.hosts sDel.aliasName).length ≠
        st.config.hosts.length →
      (DeleteServer st sDel true true pwStoreOk metaStoreOk).1 = Except.ok ()) := by
  refine ⟨?_, ?_, ?_⟩
  · intro hex
    cases metaStoreOk <;>
      simp [AddServer, hex, metadataUpdateServer, updateServerPasswordOp]
  · intro hfound hok
    cases hfh : findHostByAlias st.config sOld.aliasName with
    | none => rw [hfh] at hfound; simp at hfound
    | some h =>
        have hcond : ¬(sOld.aliasName ≠ sNew.aliasName ∧
            serverExists st.config sNew.aliasName = true) := by
          rcases hok with hok | hok
          · exact fun hc => hc.1 hok
          · exact fun hc => by rw [hok] at hc; exact absurd hc.2 (by simp)
        cases metaStoreOk <;>
          simp [UpdateServer, hfh, hcond, metadataUpdateServer,
            updateServerPasswordOp]
  · intro hlen
    cases metaStoreOk <;>
      simp [DeleteServer, hlen, metadataDeleteServer, deleteServerPasswordOp]

/-- Witness for C2: a concrete state in which all three operations reach a
successful config save while both sidecar stores fail, and each still
reports success. -/
theorem C2_store_errors_swallowed_after_save_witness :
    (AddServer
      { config := { hosts := [{ patterns := ["a"], nodes := [] }] },
        passwords := [], metadata := [] }
      { aliasName := "b", host := "h", user := "u", port := 22, password := "pw" }
      true true false false).1 = Except.ok () ∧
    (UpdateServer
      { config := { hosts := [{ patterns := ["a"], nodes := [] }] },
        passwords := [], metadata := [] }
      { aliasName := "a", host := "h", user := "u", port := 22 }
      { aliasName := "a", host := "h2", user := "u2", port := 23 }
      (hostUpdates { aliasName := "a", host := "h2", user := "u2", port := 23 })
      true true false false).1 = Except.ok () ∧
    (DeleteServer
      { config := { hosts := [{ patterns := ["a"], nodes := [] }] },
        passwords := [], metadata := [] }
      { aliasName := "a", host := "h", user := "u", port := 22 }
      true true false false).1 = Except.ok () := by
  have T := C2_store_errors_swallowed_after_save
    { config := { hosts := [{ patterns := ["a"], nodes := [] }] },
      passwords := [], metadata := [] }
    { aliasName := "b", host := "h", user := "u", port := 22, password := "pw" }
    { aliasName := "a", host := "h", user := "u", port := 22 }
    { aliasName := "a", host := "h2", user := "u2", port := 23 }
    { aliasName := "a", host := "h", user := "u", port := 22 }
    (hostUpdates { aliasName := "a", host := "h2", user := "u2", port := 23 })
    false false
  exact ⟨T.1 (by decide), T.2.1 (by decide) (Or.inl rfl), T.2.2 (by decide)⟩

/-- C3: adding a server whose alias already exists, and renaming a server
onto an alias that already exists, fail with the already-exists error
before any save: the returned state is the starting state, so the config
file and both sidecar stores are unchanged. -/
theorem C3_collision_rejected_state_unchanged
    (st : RepoState) (sAdd sOld sNew : Server) (order : List (String × String))
    (saveOk pwStoreOk metaStoreOk : Bool) :
    (serverExists st.config sAdd.aliasName = true →
      AddServer st sAdd true saveOk pwStoreOk metaStoreOk =
        (Except.error
          ("server with alias " ++ sAdd.aliasName ++ " already exists"), st)) ∧
    ((findHostByAlias st.config sOld.aliasName).isSome →
      sOld.aliasName ≠ sNew.aliasName →
      serverExists st.config sNew.aliasName = true →
      UpdateServer st sOld sNew order true saveOk pwStoreOk metaStoreOk =
        (Except.error
          ("server with alias " ++ sNew.aliasName ++ " already exists"), st)) := by
  constructor
  · intro hex
    simp [AddServer, hex]
  · intro hfound hne hex
    cases hfh : findHostByAlias st.config sOld.aliasName with
    | none => rw [hfh] at hfound; simp at hfound
    | some h => simp [UpdateServer, hfh, hne, hex]

/-- Witness for C3: with blocks for `a` and `b` present, adding `a` again
and renaming `a` to `b` both fail and leave the state unchanged. -/
theorem C3_collision_rejected_state_unchanged_witness :
    AddServer
      { config := { hosts := [{ patterns := ["a"], nodes := [] },
                              { patterns := ["b"], nodes := [] }] },
        passwords := [], metadata := [] }
      { aliasName := "a", host := "h", user := "u", port := 22 }
      true true true true =
      (Except.error "server with alias a already exists",
       { config := { hosts := [{ patterns := ["a"], nodes := [] },
                               { patterns := ["b"], nodes := [] }] },
         passwords := [], metadata := [] }) ∧
    UpdateServer
      { config := { hosts := [{ patterns := ["a"], nodes := [] },
                              { patterns := ["b"], nodes := [] }] },
        passwords := [], metadata := [] }
      { aliasName := "a", host := "h", user := "u", port := 22 }
      { aliasName := "b", host := "h", user := "u", port := 22 }
      (hostUpdates { aliasName := "b", host := "h", user := "u", port := 22 })
      true true true true =
      (Except.error "server with alias b already exists",
       { config := { hosts := [{ patterns := ["a"], nodes := [] },
                               { patterns := ["b"], nodes := [] }] },
         passwords := [], metadata := [] }) := by
  have T := C3_collision_rejected_state_unchanged
    { config := { hosts := [{ patterns := ["a"], nodes := [] },
                            { patterns := ["b"], nodes := [] }] },
      passwords := [], metadata := [] }
    { aliasName := "a", host := "h", user := "u", port := 22 }
    { aliasName := "a", host := "h", user := "u", port := 22 }
    { aliasName := "b", host := "h", user := "u", port := 22 }
    (hostUpdates { aliasName := "b", host := "h", user := "u", port := 22 })
    true true true
  exact ⟨T.1 (by decide), T.2 (by decide) (by decide) (by decide)⟩

/-! ## Claims about the password-store queries -/

/-- C8 (amended): `HasPassword` returns `true` with no error exactly when
the lookup succeeds; when the store load fails, the error is propagated
unless its message happens to contain the substring `not found` (the
not-found check is a substring match on the error text), in which case it
is also translated to `false`.  A genuine not-found lookup always maps to
`false` because its message ends in `not found`. -/
theorem C8_hasPassword_classification
    (loadRes : Except String (List (String × String))) (aliasName : String) :
    (∀ m, loadRes = Except.ok m →
      HasPassword loadRes aliasName = Except.ok (m.lookup aliasName).isSome) ∧
    (∀ e, loadRes = Except.error e →
      HasPassword loadRes aliasName =
        if strContains ("load passwords: " ++ e) "not found" then Except.ok false
        else Except.error ("load passwords: " ++ e)) := by
  constructor
  · intro m hm
    subst hm
    cases hl : m.lookup aliasName with
    | some v => simp [HasPassword, GetServerPassword, hl]
    | none =>
        have hcont : strContains
            ("password for server " ++ aliasName ++ " not found") "not found" = true := by
          refine strContains_append_right _ _ _ (by decide)
        simp [HasPassword, GetServerPassword, hl, hcont]
  · intro e he
    subst he
    simp only [HasPassword, GetServerPassword]

/-- Witness for C8: a stored entry yields `true` with no error. -/
theorem C8_hasPassword_classification_witness :
    HasPassword (Except.ok [("db1", "envelope")]) "db1" = Except.ok true :=
  (C8_hasPassword_classification (Except.ok [("db1", "envelope")]) "db1").1
    [("db1", "envelope")] rfl

/-- Counterexample to C8 as stated: a load error (an unreadable store
file) whose message contains `not found` only because the store path does
is translated to `false` instead of being propagated. -/
theorem C8_counterexample :
    HasPassword
      (Except.error "read passwords /home/user/not found/passwords.json: permission denied")
      "db1" = Except.ok false := by
  rfl

end DogSSH
